import Mathlib

/-!
Verification of `single-button-clock.c` (graumannteague/single-button-clock).

The program keeps 12-hour time on an ATmega328P.  Its observable core is:

* five `volatile uint8_t` globals: `display_flag`, `ticks`, `tod_secs`,
  `tod_mins`, `tod_hours`;
* `ISR(TIMER1_COMPA_vect)`: the tick accumulator, run once per 1/50 s,
  cascading ticks → seconds → minutes → hours (1–12 wrap) and setting
  `display_flag` on each minute rollover;
* `set_var`: counts debounced button presses into a `uint8_t` target,
  always confirming at least one press before its timeout loop;
* `set_clock`: acquires hours then minutes via `set_var`, re-prompting with
  three LED blinks while the entered value is out of range
  (`tod_hours > 12`, `tod_mins > 59`), then one blink (hours) or two
  blinks (minutes) on success.

All variables are 8-bit unsigned, so every increment is taken mod 256.
We model the globals as a record of `Nat`s with the mod-256 arithmetic
made explicit, and the ISR / acquisition routines as pure functions on it.
-/

set_option maxRecDepth 8000

/-- The five shared `volatile uint8_t` globals of the program.  Each numeric
field holds the current 8-bit value (an invariant `< 256` where needed is
carried in theorems, with wraparound `% 256` explicit in the operations). -/
@[ext]
structure ClockVars where
  ticks : Nat
  tod_secs : Nat
  tod_mins : Nat
  tod_hours : Nat
  display_flag : Bool
deriving DecidableEq

/-- Shallow embedding of `ISR(TIMER1_COMPA_vect)` (single-button-clock.c,
lines 307–321): `++ticks`, compare `>= 50`; on rollover reset ticks and
`++tod_secs`, compare `>= 60`; on rollover reset seconds, set
`display_flag`, `++tod_mins`, compare `>= 60`; on rollover reset minutes,
`++tod_hours`, compare `>= 13`; on rollover set hours to 1.  All
increments are `uint8_t`, hence mod 256. -/
def isrStep (s : ClockVars) : ClockVars :=
  let t := (s.ticks + 1) % 256
  if 50 ≤ t then
    let sec := (s.tod_secs + 1) % 256
    if 60 ≤ sec then
      let m := (s.tod_mins + 1) % 256
      if 60 ≤ m then
        let h := (s.tod_hours + 1) % 256
        if 13 ≤ h then
          ⟨0, 0, 0, 1, true⟩
        else
          ⟨0, 0, 0, h, true⟩
      else
        ⟨0, 0, m, s.tod_hours, true⟩
    else
      ⟨0, sec, s.tod_mins, s.tod_hours, s.display_flag⟩
  else
    ⟨t, s.tod_secs, s.tod_mins, s.tod_hours, s.display_flag⟩

/-- `n` consecutive invocations of the tick-accumulator interrupt. -/
def run : Nat → ClockVars → ClockVars
  | 0, s => s
  | n + 1, s => run n (isrStep s)

/-- The ClockState range invariant of the spec data model: ticks 0..49,
seconds 0..59, minutes 0..59, hours 1..12. -/
def inRange (s : ClockVars) : Prop :=
  s.ticks < 50 ∧ s.tod_secs < 60 ∧ s.tod_mins < 60 ∧
    1 ≤ s.tod_hours ∧ s.tod_hours ≤ 12

instance : DecidablePred inRange := fun s => by
  unfold inRange; infer_instance

/-- One ISR invocation preserves the ClockState range invariant. -/
theorem isrStep_inRange {s : ClockVars} (h : inRange s) : inRange (isrStep s) := by
  obtain ⟨t, sec, m, hr, f⟩ := s
  simp only [inRange, isrStep] at h ⊢
  split_ifs <;> simp_all <;> omega

/-- `run` preserves the range invariant. -/
theorem run_inRange {s : ClockVars} (h : inRange s) (n : Nat) :
    inRange (run n s) := by
  induction n generalizing s with
  | zero => exact h
  | succ n ih => exact ih (isrStep_inRange h)

/-- Does an ISR invocation from state `s` execute the `display_flag = 1`
assignment?  In the code this happens exactly when the incremented ticks
reach 50 and the incremented seconds reach 60. -/
def setsFlag (s : ClockVars) : Bool :=
  decide (50 ≤ (s.ticks + 1) % 256) && decide (60 ≤ (s.tod_secs + 1) % 256)

/-- Number of ISR invocations among the next `n` (starting from state `s`)
that execute the flag-set assignment. -/
def flagHits : Nat → ClockVars → Nat
  | 0, _ => 0
  | n + 1, s => (if setsFlag s then 1 else 0) + flagHits n (isrStep s)

/-- Mixed-radix encoding of the four counters: an in-range state maps to a
position in `0..2159999` (50 ticks × 60 s × 60 min × 12 h). -/
def encode (s : ClockVars) : Nat :=
  s.ticks + 50 * s.tod_secs + 3000 * s.tod_mins + 180000 * (s.tod_hours - 1)

theorem encode_lt {s : ClockVars} (h : inRange s) : encode s < 2160000 := by
  obtain ⟨t, sec, m, hr, f⟩ := s
  simp only [inRange, encode] at h ⊢
  omega

/-- On in-range states one ISR invocation advances the encoded position by
one, mod the full period. -/
theorem encode_isrStep {s : ClockVars} (h : inRange s) :
    encode (isrStep s) = (encode s + 1) % 2160000 := by
  obtain ⟨t, sec, m, hr, f⟩ := s
  simp only [inRange, encode, isrStep] at h ⊢
  split_ifs <;> simp_all <;> omega

theorem encode_run {s : ClockVars} (h : inRange s) (n : Nat) :
    encode (run n s) = (encode s + n) % 2160000 := by
  induction n generalizing s with
  | zero =>
    simpa [run] using (Nat.mod_eq_of_lt (encode_lt h)).symm
  | succ n ih =>
    rw [run, ih (isrStep_inRange h), encode_isrStep h, Nat.mod_add_mod]
    ring_nf

/-- In-range states with equal encodings are equal on all four counters;
in particular the hours digit is recoverable from the encoding. -/
theorem hours_of_encode {s : ClockVars} (h : inRange s) :
    s.tod_hours = encode s / 180000 + 1 := by
  obtain ⟨t, sec, m, hr, f⟩ := s
  simp only [inRange, encode] at h ⊢
  omega

/-- The flag-set assignment fires exactly at encoded positions that are
≡ 2999 (mod 3000), i.e. at the last tick of each minute. -/
theorem setsFlag_iff {s : ClockVars} (h : inRange s) :
    setsFlag s = true ↔ encode s % 3000 = 2999 := by
  obtain ⟨t, sec, m, hr, f⟩ := s
  simp only [inRange, setsFlag, encode, Bool.and_eq_true, decide_eq_true_eq] at h ⊢
  omega

/-- Arithmetic shadow of `flagHits`: number of positions `c, c+1, …, c+n-1`
(advancing mod the full period) that are ≡ 2999 (mod 3000). -/
def countHits : Nat → Nat → Nat
  | 0, _ => 0
  | n + 1, c => (if c % 3000 = 2999 then 1 else 0) + countHits n ((c + 1) % 2160000)

theorem flagHits_eq_countHits {s : ClockVars} (h : inRange s) (n : Nat) :
    flagHits n s = countHits n (encode s) := by
  induction n generalizing s with
  | zero => rfl
  | succ n ih =>
    rw [flagHits, countHits, ih (isrStep_inRange h), encode_isrStep h]
    congr 1
    by_cases hc : encode s % 3000 = 2999
    · rw [if_pos hc, if_pos ((setsFlag_iff h).mpr hc)]
    · rw [if_neg hc, if_neg (fun hb => hc ((setsFlag_iff h).mp hb))]

/-- Closed form for `countHits`: starting at position `c < 2160000`, the
number of flag positions among the next `n` is `(c % 3000 + n) / 3000`. -/
theorem countHits_closed (n : Nat) : ∀ c, c < 2160000 →
    countHits n c = (c % 3000 + n) / 3000 := by
  induction n with
  | zero => intro c _; simp [countHits]
  | succ n ih =>
    intro c hc
    have hdvd : (3000 : Nat) ∣ 2160000 := by norm_num
    have hlt : (c + 1) % 2160000 < 2160000 := Nat.mod_lt _ (by norm_num)
    rw [countHits, ih _ hlt, Nat.mod_mod_of_dvd _ hdvd]
    split_ifs <;> omega

/-- A seeded ClockState per the spec's mode-switch section: `set_clock` has
validated hours (1..12) and minutes (0..59) while seconds and ticks are
still at their boot value 0. -/
def seeded (s : ClockVars) : Prop :=
  s.ticks = 0 ∧ s.tod_secs = 0 ∧ s.tod_mins < 60 ∧
    1 ≤ s.tod_hours ∧ s.tod_hours ≤ 12

instance : DecidablePred seeded := fun s => by
  unfold seeded; infer_instance

theorem seeded_inRange {s : ClockVars} (h : seeded s) : inRange s := by
  obtain ⟨t, sec, m, hr, f⟩ := s
  simp only [seeded, inRange] at h ⊢
  omega

/-- The four-step cascade exactly as the spec words it (§4.1):
1. increment subSecondTicks; if it reaches 50, reset and increment seconds;
2. if seconds reaches 60, reset, increment minutes, set the flag;
3. if minutes reaches 60, reset, increment hours;
4. if hours reaches 13, wrap to 1.
This is the comparison definition for the refinement claim; `isrStep` is
the one translated from the source. -/
def tickCascadeSpec (s : ClockVars) : ClockVars :=
  let s1 :=
    if s.ticks + 1 = 50 then
      { s with ticks := 0, tod_secs := s.tod_secs + 1 }
    else
      { s with ticks := s.ticks + 1 }
  let s2 :=
    if s1.tod_secs = 60 then
      { s1 with tod_secs := 0, tod_mins := s1.tod_mins + 1, display_flag := true }
    else
      s1
  let s3 :=
    if s2.tod_mins = 60 then
      { s2 with tod_mins := 0, tod_hours := s2.tod_hours + 1 }
    else
      s2
  if s3.tod_hours = 13 then { s3 with tod_hours := 1 } else s3

/-- The `(*var)++` of `set_var`: an 8-bit increment. -/
def bumpVar (v : Nat) : Nat := (v + 1) % 256

/-- `k` further confirmed presses applied to the 8-bit target. -/
def pressLoop : Nat → Nat → Nat
  | 0, v => v
  | k + 1, v => pressLoop k (bumpVar v)

/-- Shallow embedding of `set_var` (single-button-clock.c, lines 212–234)
as a function of the entry value of the target and the number `n` of
confirmed press edges.  The routine first blocks until a press edge is
debounced and confirmed, so every terminating execution has `n ≥ 1`; each
confirmed edge performs one 8-bit increment of the target. -/
def set_var (v : Nat) (n : Nat) : Nat := pressLoop n v

theorem pressLoop_eq (n : Nat) : ∀ v, v < 256 → pressLoop n v = (v + n) % 256 := by
  induction n with
  | zero => intro v hv; simp [pressLoop, Nat.mod_eq_of_lt hv]
  | succ n ih =>
    intro v hv
    rw [pressLoop, bumpVar, ih _ (Nat.mod_lt _ (by norm_num)), Nat.mod_add_mod]
    ring_nf

theorem set_var_eq {v : Nat} (hv : v < 256) (n : Nat) :
    set_var v n = (v + n) % 256 := pressLoop_eq n v hv

/-- Acceptance test applied by `set_clock` to the hours value: the loop
condition is `tod_hours > 12`, so the value is accepted iff `¬(v > 12)`. -/
def hoursAccept (v : Nat) : Bool := !(decide (12 < v))

/-- Acceptance test applied by `set_clock` to the minutes value: the loop
condition is `tod_mins > 59`, so the value is accepted iff `¬(v > 59)`. -/
def minsAccept (v : Nat) : Bool := !(decide (59 < v))

/-- One field of `set_clock` (lines 244–257), embedded over the sequence of
per-attempt confirmed press counts.  Each attempt starts from target value
0 (boot value, or the explicit reset before a re-prompt) and runs
`set_var`; a value above `limit` emits the three-blink invalid feedback
and re-prompts, a valid value emits the field's success blink count
(`okBlink`: 1 for hours, 2 for minutes) and is returned.  `none` means the
attempt list was exhausted without a valid value (the user is still being
re-prompted).  The second component is the emitted blink trace. -/
def setField (limit okBlink : Nat) : List Nat → Option (Nat × List Nat)
  | [] => none
  | n :: rest =>
    if limit < set_var 0 n then
      (setField limit okBlink rest).map (fun p => (p.1, 3 :: p.2))
    else
      some (set_var 0 n, [okBlink])

/-- `set_clock` (lines 236–260): acquire hours (limit 12, one blink on
success) then minutes (limit 59, two blinks on success), concatenating the
blink traces. -/
def set_clock (hourAttempts minAttempts : List Nat) :
    Option ((Nat × Nat) × List Nat) :=
  match setField 12 1 hourAttempts with
  | none => none
  | some (h, bl1) =>
    match setField 59 2 minAttempts with
    | none => none
    | some (m, bl2) => some ((h, m), bl1 ++ bl2)

/-- The shared variables written by the ISR. -/
inductive IsrWrite where
  | wTicks
  | wSecs
  | wFlag
  | wMins
  | wHours
deriving DecidableEq

/-- Program-order trace of the variable writes executed by one invocation
of `ISR(TIMER1_COMPA_vect)`: `++ticks`; on rollover `ticks = 0`,
`++tod_secs`; on rollover `tod_secs = 0`, `display_flag = 1`, `++tod_mins`;
on rollover `tod_mins = 0`, `++tod_hours`; on rollover `tod_hours = 1`. -/
def isrTrace (s : ClockVars) : List IsrWrite :=
  let t := (s.ticks + 1) % 256
  IsrWrite.wTicks ::
    (if 50 ≤ t then
      let sec := (s.tod_secs + 1) % 256
      IsrWrite.wTicks :: IsrWrite.wSecs ::
        (if 60 ≤ sec then
          let m := (s.tod_mins + 1) % 256
          IsrWrite.wSecs :: IsrWrite.wFlag :: IsrWrite.wMins ::
            (if 60 ≤ m then
              let h := (s.tod_hours + 1) % 256
              IsrWrite.wMins :: IsrWrite.wHours ::
                (if 13 ≤ h then [IsrWrite.wHours] else [])
            else [])
        else [])
    else [])

/-- `true` iff after the first flag write in the trace no counter write
occurs, i.e. the flag write happens only once every cascading counter
update for the invocation has completed. -/
def flagAfterAllUpdates : List IsrWrite → Bool
  | [] => true
  | IsrWrite.wFlag :: rest => rest.all (fun e => e = IsrWrite.wFlag)
  | _ :: rest => flagAfterAllUpdates rest

theorem ticks_of_encode {s : ClockVars} (h : inRange s) :
    s.ticks = encode s % 50 := by
  obtain ⟨t, sec, m, hr, f⟩ := s
  simp only [inRange, encode] at h ⊢
  omega

theorem secs_of_encode {s : ClockVars} (h : inRange s) :
    s.tod_secs = encode s / 50 % 60 := by
  obtain ⟨t, sec, m, hr, f⟩ := s
  simp only [inRange, encode] at h ⊢
  omega

theorem mins_of_encode {s : ClockVars} (h : inRange s) :
    s.tod_mins = encode s / 3000 % 60 := by
  obtain ⟨t, sec, m, hr, f⟩ := s
  simp only [inRange, encode] at h ⊢
  omega

/-- The ISR never clears the flag: after one invocation the flag is the old
flag or-ed with whether this invocation executed the flag assignment. -/
theorem isrStep_flag (s : ClockVars) :
    (isrStep s).display_flag = (s.display_flag || setsFlag s) := by
  obtain ⟨t, sec, m, hr, f⟩ := s
  simp only [isrStep, setsFlag]
  split_ifs <;> simp_all

/-- The flag after `n` invocations: set iff it was set before or some
invocation in the window executed the flag assignment. -/
theorem run_flag (n : Nat) : ∀ s : ClockVars,
    ((run n s).display_flag = true ↔
      s.display_flag = true ∨ 0 < flagHits n s) := by
  induction n with
  | zero => intro s; simp [run, flagHits]
  | succ n ih =>
    intro s
    rw [run, flagHits, ih, isrStep_flag]
    by_cases hf : setsFlag s <;> simp [hf]

/-- Refinement: on in-range states the source ISR computes exactly the
spec's four-step cascade. -/
theorem isrStep_eq_cascade {s : ClockVars} (h : inRange s) :
    isrStep s = tickCascadeSpec s := by
  obtain ⟨t, sec, m, hr, f⟩ := s
  simp only [inRange] at h
  simp only [isrStep, tickCascadeSpec]
  split_ifs <;> simp_all [ClockVars.mk.injEq] <;> omega

/-- Scenario C of the spec, proved through the encoding: 3000 ISR
invocations from the seed (hours 11, minutes 7) advance the clock by
exactly one minute. -/
theorem run_3000_scenario :
    run 3000 ⟨0, 0, 7, 11, false⟩ = ⟨0, 0, 8, 11, true⟩ := by
  have h1 : inRange ⟨0, 0, 7, 11, false⟩ := by decide
  have h2 := run_inRange h1 3000
  have he : encode (run 3000 ⟨0, 0, 7, 11, false⟩) = 1824000 := by
    rw [encode_run h1]; norm_num [encode]
  have hf : flagHits 3000 ⟨0, 0, 7, 11, false⟩ = 1 := by
    rw [flagHits_eq_countHits h1, countHits_closed _ _ (by norm_num [encode])]
    norm_num [encode]
  ext
  · rw [ticks_of_encode h2, he]
  · rw [secs_of_encode h2, he]
  · rw [mins_of_encode h2, he]
  · rw [hours_of_encode h2, he]
  · show (run 3000 ⟨0, 0, 7, 11, false⟩).display_flag = true
    rw [run_flag]
    exact Or.inr (by rw [hf]; norm_num)

/-- The flag fires exactly once over those 3000 invocations. -/
theorem flagHits_3000_scenario :
    flagHits 3000 ⟨0, 0, 7, 11, false⟩ = 1 := by
  have h1 : inRange ⟨0, 0, 7, 11, false⟩ := by decide
  rw [flagHits_eq_countHits h1, countHits_closed _ _ (by norm_num [encode])]
  norm_num [encode]

/-- Claim C1: for the minutes field, `set_clock` accepts an acquired 8-bit
value `v` iff `v ≤ 59` (the loop condition is `tod_mins > 59`); in
particular the value 0 is accepted, and the protocol can produce
minutes = 0 — a 256-press attempt wraps the 8-bit counter to 0, which is
accepted with the two-blink success feedback. -/
theorem claim_C1 :
    (∀ v : Nat, v < 256 → (minsAccept v = true ↔ v ≤ 59)) ∧
      minsAccept 0 = true ∧
      setField 59 2 [256] = some (0, [2]) := by
  refine ⟨fun v _ => ?_, by decide, by decide⟩
  simp only [minsAccept, Bool.not_eq_true', decide_eq_false_iff_not, Nat.not_lt]

/-- Witness for claim C1 at the concrete value 55. -/
theorem claim_C1_witness :
    (55 : Nat) < 256 ∧ (minsAccept 55 = true ↔ (55 : Nat) ≤ 59) :=
  ⟨by decide, claim_C1.1 55 (by decide)⟩

/-- Claim C2 fails on the code: `set_clock` only tests `tod_hours > 12`,
so the hours value 0 is accepted rather than re-prompted; a 256-press
attempt (8-bit wraparound to 0) is acquired with the one-blink success
feedback and no invalid cycle. -/
theorem claim_C2_counterexample :
    hoursAccept 0 = true ∧ ¬(1 ≤ (0 : Nat)) ∧
      setField 12 1 [256] = some (0, [1]) := by decide

/-- Claim C2 amended: the hours field accepts an 8-bit value `v` iff
`v ≤ 12` (0 included, reachable only via mod-256 wraparound); every
rejected attempt triggers exactly one three-blink invalid cycle before
re-prompting for the same field. -/
theorem claim_C2 :
    (∀ v : Nat, v < 256 → (hoursAccept v = true ↔ v ≤ 12)) ∧
      (∀ (n : Nat) (rest : List Nat), hoursAccept (set_var 0 n) = false →
        setField 12 1 (n :: rest) =
          (setField 12 1 rest).map (fun p => (p.1, 3 :: p.2))) := by
  constructor
  · intro v _
    simp only [hoursAccept, Bool.not_eq_true', decide_eq_false_iff_not, Nat.not_lt]
  · intro n rest hn
    simp only [hoursAccept, Bool.not_eq_false', decide_eq_true_eq] at hn
    simp only [setField]
    rw [if_pos hn]

/-- Witness for claim C2: value 7 is in range; a 13-press attempt is
rejected with one three-blink cycle before the re-prompt. -/
theorem claim_C2_witness :
    ((7 : Nat) < 256 ∧ (hoursAccept 7 = true ↔ (7 : Nat) ≤ 12)) ∧
      (hoursAccept (set_var 0 13) = false ∧
        setField 12 1 [13, 5] =
          (setField 12 1 [5]).map (fun p => (p.1, 3 :: p.2))) :=
  ⟨⟨by decide, claim_C2.1 7 (by decide)⟩,
    ⟨by decide, claim_C2.2 13 [5] (by decide)⟩⟩

/-- Claim C6: a 13-press hours attempt is rejected with exactly one
three-blink cycle, the target is reset, and a following 5-press attempt is
accepted as 5 with the one-blink success feedback; moreover acquisition
never fails terminally — whenever some attempt carries an in-range value,
`setField` returns a value (the only other outcome is continuing to
re-prompt). -/
theorem claim_C6 :
    setField 12 1 [13, 5] = some (5, [3, 1]) ∧
      (∀ attempts : List Nat,
        (∃ n ∈ attempts, hoursAccept (set_var 0 n) = true) →
          (setField 12 1 attempts).isSome = true) := by
  constructor
  · decide
  · intro attempts h
    induction attempts with
    | nil => simp at h
    | cons a rest ih =>
      obtain ⟨n, hmem, hacc⟩ := h
      simp only [setField]
      by_cases hva : 12 < set_var 0 a
      · rw [if_pos hva]
        rcases List.mem_cons.mp hmem with heq | hmem2
        · subst heq
          simp only [hoursAccept, Bool.not_eq_true', decide_eq_false_iff_not,
            Nat.not_lt] at hacc
          omega
        · have hrec := ih ⟨n, hmem2, hacc⟩
          cases hsf : setField 12 1 rest <;> simp_all
      · rw [if_neg hva]
        simp

/-- Witness for claim C6 on the attempt list of scenario B. -/
theorem claim_C6_witness :
    (∃ n ∈ [13, 5], hoursAccept (set_var 0 n) = true) ∧
      (setField 12 1 [13, 5]).isSome = true :=
  ⟨⟨5, by decide, by decide⟩, claim_C6.2 [13, 5] ⟨5, by decide, by decide⟩⟩

/-- Claim C8 fails on the code: with 256 confirmed press edges the 8-bit
target wraps around to its entry value, so `set_var` can return a value
that is not greater than it was on entry (and a field can be acquired with
stored value 0). -/
theorem claim_C8_counterexample :
    set_var 0 256 = 0 ∧ ¬(0 + 1 ≤ set_var 0 256) := by decide

/-- Claim C8 amended: every terminating `set_var` execution confirms at
least one press edge (`1 ≤ n`), and with `n` confirmed edges the target
returns `(entry + n) % 256`; the result exceeds the entry value whenever
no 8-bit wraparound occurs, and it is 0 exactly when `entry + n` is a
multiple of 256. -/
theorem claim_C8 :
    ∀ v n : Nat, v < 256 → 1 ≤ n →
      set_var v n = (v + n) % 256 ∧
        (v + n < 256 → v + 1 ≤ set_var v n) ∧
        (set_var v n = 0 ↔ (v + n) % 256 = 0) := by
  intro v n hv hn
  rw [set_var_eq hv]
  refine ⟨rfl, fun hlt => ?_, Iff.rfl⟩
  rw [Nat.mod_eq_of_lt hlt]
  omega

/-- Witness for claim C8 with three presses from entry value 0. -/
theorem claim_C8_witness :
    (0 : Nat) < 256 ∧ (1 : Nat) ≤ 3 ∧
      (set_var 0 3 = (0 + 3) % 256 ∧ (0 + 3 < 256 → 0 + 1 ≤ set_var 0 3) ∧
        (set_var 0 3 = 0 ↔ (0 + 3) % 256 = 0)) :=
  ⟨by decide, by decide, claim_C8 0 3 (by decide) (by decide)⟩

/-- Claim C9: press accumulation is 8-bit — `c` confirmed presses from a
zeroed target yield the value `c % 256`, so the `set_clock` range checks
accept any press count whose value mod 256 is in the field's range; in
particular 268 presses for hours are accepted as the value 12. -/
theorem claim_C9 :
    (∀ n : Nat, set_var 0 n = n % 256) ∧
      (∀ c : Nat, 1 ≤ c % 256 → c % 256 ≤ 12 →
        hoursAccept (set_var 0 c) = true) ∧
      (∀ c : Nat, c % 256 ≤ 59 → minsAccept (set_var 0 c) = true) ∧
      set_var 0 268 = 12 ∧ hoursAccept (set_var 0 268) = true := by
  have hsv : ∀ n : Nat, set_var 0 n = n % 256 := fun n => by
    rw [set_var_eq (by norm_num), Nat.zero_add]
  refine ⟨hsv, fun c _ h2 => ?_, fun c h => ?_, ?_, ?_⟩
  · rw [hsv]
    simp only [hoursAccept, Bool.not_eq_true', decide_eq_false_iff_not, Nat.not_lt]
    omega
  · rw [hsv]
    simp only [minsAccept, Bool.not_eq_true', decide_eq_false_iff_not, Nat.not_lt]
    omega
  · rw [hsv]
  · rw [hsv]
    decide

/-- Witness for claim C9 at 268 presses. -/
theorem claim_C9_witness :
    ((1 : Nat) ≤ 268 % 256 ∧ (268 : Nat) % 256 ≤ 12) ∧
      hoursAccept (set_var 0 268) = true :=
  ⟨⟨by decide, by decide⟩, claim_C9.2.1 268 (by decide) (by decide)⟩

/-- Claim C10: if the incremented ticks value stays below 50 the ISR
changes only the ticks field — seconds, minutes, hours and the flag are
untouched; if ticks rolls over but the incremented seconds value stays
below 60, minutes, hours and the flag are untouched. -/
theorem claim_C10 (s : ClockVars) :
    ((s.ticks + 1) % 256 < 50 →
      (isrStep s).tod_secs = s.tod_secs ∧ (isrStep s).tod_mins = s.tod_mins ∧
        (isrStep s).tod_hours = s.tod_hours ∧
        (isrStep s).display_flag = s.display_flag) ∧
      (50 ≤ (s.ticks + 1) % 256 → (s.tod_secs + 1) % 256 < 60 →
        (isrStep s).tod_mins = s.tod_mins ∧
          (isrStep s).tod_hours = s.tod_hours ∧
          (isrStep s).display_flag = s.display_flag) := by
  obtain ⟨t, sec, m, hr, f⟩ := s
  simp only [isrStep]
  constructor
  · intro h1
    rw [if_neg (by omega)]
    exact ⟨rfl, rfl, rfl, rfl⟩
  · intro h1 h2
    rw [if_pos h1, if_neg (by omega)]
    exact ⟨rfl, rfl, rfl⟩

/-- Witness for claim C10 at ticks 3 (no rollover) and ticks 49 (seconds
increment only). -/
theorem claim_C10_witness :
    ((isrStep ⟨3, 10, 20, 5, false⟩).tod_secs = 10 ∧
      (isrStep ⟨3, 10, 20, 5, false⟩).tod_mins = 20 ∧
      (isrStep ⟨3, 10, 20, 5, false⟩).tod_hours = 5 ∧
      (isrStep ⟨3, 10, 20, 5, false⟩).display_flag = false) ∧
    ((isrStep ⟨49, 10, 20, 5, false⟩).tod_mins = 20 ∧
      (isrStep ⟨49, 10, 20, 5, false⟩).tod_hours = 5 ∧
      (isrStep ⟨49, 10, 20, 5, false⟩).display_flag = false) :=
  ⟨(claim_C10 _).1 (by decide), (claim_C10 _).2 (by decide) (by decide)⟩

/-- Claim C3 fails on the code: in the ISR body `display_flag = 1` is
executed before `++tod_mins` (and any `++tod_hours`), so at a minute
rollover the write trace contains a counter update after the flag write —
the flag is not set strictly after all cascading updates complete. -/
theorem claim_C3_counterexample :
    inRange ⟨49, 59, 7, 11, false⟩ ∧
      isrTrace ⟨49, 59, 7, 11, false⟩ =
        [IsrWrite.wTicks, IsrWrite.wTicks, IsrWrite.wSecs, IsrWrite.wSecs,
          IsrWrite.wFlag, IsrWrite.wMins] ∧
      flagAfterAllUpdates (isrTrace ⟨49, 59, 7, 11, false⟩) = false := by
  decide

/-- Claim C3 amended: whenever an ISR invocation from an in-range state
sets the flag, the flag write precedes the minute/hour counter updates in
program order (the opposite of the claimed ordering); nevertheless the
invocation as a whole — the only granularity the foreground can observe,
since the interrupt completes before the foreground resumes — leaves a
fully-updated ClockState, with minutes (and hours on an hour rollover)
already advanced. -/
theorem claim_C3 (s : ClockVars) (h : inRange s) (h0 : s.display_flag = false)
    (h1 : (isrStep s).display_flag = true) :
    flagAfterAllUpdates (isrTrace s) = false ∧
      (isrStep s).ticks = 0 ∧ (isrStep s).tod_secs = 0 ∧
      (isrStep s).tod_mins = (s.tod_mins + 1) % 60 ∧
      (isrStep s).tod_hours =
        (if s.tod_mins = 59 then s.tod_hours % 12 + 1 else s.tod_hours) := by
  have hset : setsFlag s = true := by
    have hstep := isrStep_flag s
    rw [h1, h0, Bool.false_or] at hstep
    exact hstep.symm
  obtain ⟨t, sec, m, hr, f⟩ := s
  simp only [inRange] at h
  simp only [setsFlag, Bool.and_eq_true, decide_eq_true_eq] at hset
  have ht : t = 49 := by omega
  have hs2 : sec = 59 := by omega
  subst ht hs2
  simp only [isrStep, isrTrace, flagAfterAllUpdates]
  split_ifs <;> simp_all [flagAfterAllUpdates] <;> omega

/-- Witness for claim C3 at the state one tick before the 11:07 → 11:08
rollover. -/
theorem claim_C3_witness :
    flagAfterAllUpdates (isrTrace ⟨49, 59, 7, 11, false⟩) = false ∧
      (isrStep ⟨49, 59, 7, 11, false⟩).ticks = 0 ∧
      (isrStep ⟨49, 59, 7, 11, false⟩).tod_secs = 0 ∧
      (isrStep ⟨49, 59, 7, 11, false⟩).tod_mins = (7 + 1) % 60 ∧
      (isrStep ⟨49, 59, 7, 11, false⟩).tod_hours =
        (if (7 : Nat) = 59 then 11 % 12 + 1 else 11) :=
  claim_C3 ⟨49, 59, 7, 11, false⟩ (by decide) rfl (by decide)

/-- Claim C4: on in-range states each ISR invocation computes exactly the
spec's four-step cascade, and 3000 invocations from the seeded state
(hours 11, minutes 7) set the flag exactly once and leave the clock at
(hours 11, minutes 8, seconds 0, ticks 0). -/
theorem claim_C4 :
    (∀ s : ClockVars, inRange s → isrStep s = tickCascadeSpec s) ∧
      run 3000 ⟨0, 0, 7, 11, false⟩ = ⟨0, 0, 8, 11, true⟩ ∧
      flagHits 3000 ⟨0, 0, 7, 11, false⟩ = 1 :=
  ⟨fun _ h => isrStep_eq_cascade h, run_3000_scenario, flagHits_3000_scenario⟩

/-- Witness for claim C4 at the all-rollover state 12:59:59.49. -/
theorem claim_C4_witness :
    inRange ⟨49, 59, 59, 12, false⟩ ∧
      isrStep ⟨49, 59, 59, 12, false⟩ = tickCascadeSpec ⟨49, 59, 59, 12, false⟩ :=
  ⟨by decide, claim_C4.1 _ (by decide)⟩

/-- Claim C5: from any seeded state, after any multiple of
50 × 60 × 60 × 12 = 2160000 ISR invocations the hours counter has returned
to its seed value, and the flag-set assignment has executed exactly
N / 3000 times (conservation of rollovers). -/
theorem claim_C5 (s : ClockVars) (k : Nat) (hs : seeded s) :
    (run (k * 2160000) s).tod_hours = s.tod_hours ∧
      flagHits (k * 2160000) s = k * 2160000 / 3000 := by
  have h1 := seeded_inRange hs
  have h2 := run_inRange h1 (k * 2160000)
  have he : encode (run (k * 2160000) s) = encode s := by
    rw [encode_run h1, Nat.add_mul_mod_self_right]
    exact Nat.mod_eq_of_lt (encode_lt h1)
  constructor
  · rw [hours_of_encode h2, he, ← hours_of_encode h1]
  · rw [flagHits_eq_countHits h1, countHits_closed _ _ (encode_lt h1)]
    have hm : encode s % 3000 < 3000 := Nat.mod_lt _ (by norm_num)
    omega

/-- Witness for claim C5 at the seed 11:07 over one full 12-hour period. -/
theorem claim_C5_witness :
    seeded ⟨0, 0, 7, 11, false⟩ ∧
      ((run (1 * 2160000) ⟨0, 0, 7, 11, false⟩).tod_hours = 11 ∧
        flagHits (1 * 2160000) ⟨0, 0, 7, 11, false⟩ = 1 * 2160000 / 3000) :=
  ⟨by decide, claim_C5 ⟨0, 0, 7, 11, false⟩ 1 (by decide)⟩

/-- Claim C7: one ISR invocation preserves the ClockState ranges (ticks
0..49, seconds 0..59, minutes 0..59, hours 1..12) — in particular hours is
never 0 nor above 12 — and each field advances by exactly one carry per
level: ticks by one mod 50, and each higher field by one exactly when all
lower fields roll over. -/
theorem claim_C7 (s : ClockVars) (h : inRange s) :
    inRange (isrStep s) ∧
      (isrStep s).tod_hours ≠ 0 ∧ (isrStep s).tod_hours ≤ 12 ∧
      (isrStep s).ticks = (s.ticks + 1) % 50 ∧
      (isrStep s).tod_secs =
        (if s.ticks = 49 then (s.tod_secs + 1) % 60 else s.tod_secs) ∧
      (isrStep s).tod_mins =
        (if s.ticks = 49 ∧ s.tod_secs = 59 then (s.tod_mins + 1) % 60
          else s.tod_mins) ∧
      (isrStep s).tod_hours =
        (if s.ticks = 49 ∧ s.tod_secs = 59 ∧ s.tod_mins = 59
          then s.tod_hours % 12 + 1 else s.tod_hours) := by
  obtain ⟨t, sec, m, hr, f⟩ := s
  simp only [inRange, isrStep] at h ⊢
  split_ifs <;> simp_all <;> omega

/-- Witness for claim C7 at the all-rollover state 12:59:59.49. -/
theorem claim_C7_witness :
    inRange ⟨49, 59, 59, 12, false⟩ ∧
      inRange (isrStep ⟨49, 59, 59, 12, false⟩) :=
  ⟨by decide, (claim_C7 ⟨49, 59, 59, 12, false⟩ (by decide)).1⟩
